import Mathlib

/-!
Shallow embedding of the diagnosis engine of `app_main.py`
(Car Health Prediction system): the rule-based alert evaluator
`check_custom_rules`, the classifier adapter `predict_failure`,
and the verdict fusion (`all_alerts` + confidence display).

Numeric values are modelled as rationals; the dynamically-typed
Python dict values are modelled by `PyVal` (a number or a string),
since the vitals mapping passed to `check_custom_rules` may carry
non-numeric entries (e.g. the `"car"` key).  A comparison of a
string value with a number raises `TypeError` in Python; together
with `KeyError` for a missing key, both are caught by the single
`try/except` wrapping the whole rule block, which returns the
alerts accumulated so far.
-/

/-- A Python dict value: a number or a (non-numeric) string. -/
inductive PyVal where
  | num : ℚ → PyVal
  | str : String → PyVal
deriving DecidableEq, Repr

/-- The vitals mapping passed into the diagnosis engine: a Python dict,
keys to values (first binding wins, as dict keys are unique). -/
def Vitals := List (String × PyVal)

/-- `data[k]` / `data.get(k)`: the value bound to `k`, if present. -/
def lookup (data : Vitals) (k : String) : Option PyVal :=
  match data with
  | [] => none
  | (k', v) :: rest => if k' = k then some v else lookup rest k

/-- Outcome of one threshold check inside the `try` block of
`check_custom_rules`: the check raises (missing key / non-numeric
comparison), appends its alert, or passes quietly. -/
inductive Outcome where
  | raise : Outcome
  | fire : Outcome
  | nofire : Outcome
deriving DecidableEq, Repr

/-- A single-key threshold check `if data[key] <cond>: alerts.append(...)`:
raises on a missing key (`KeyError`) or a non-numeric value (`TypeError`). -/
def numCheck (key : String) (cond : ℚ → Bool) (data : Vitals) : Outcome :=
  match lookup data key with
  | some (.num v) => if cond v then .fire else .nofire
  | _ => .raise

/-- The brake-pad check
`if data["brake_pad_wear_mm_front"] < 3 or data.get("brake_pad_wear_mm_rear", 3) < 3`,
with Python short-circuit `or`: the rear value is only looked at when the
front comparison is false; a missing rear key defaults to `3`. -/
def brakeCheck (data : Vitals) : Outcome :=
  match lookup data "brake_pad_wear_mm_front" with
  | some (.num f) =>
      if f < 3 then .fire
      else
        match (lookup data "brake_pad_wear_mm_rear").getD (.num 3) with
        | .num r => if r < 3 then .fire else .nofire
        | .str _ => .raise
  | _ => .raise

/-- The fixed table of rule checks of `check_custom_rules`, in source
order, paired with the alert label each appends. -/
def ruleTable : List (String × (Vitals → Outcome)) :=
  [ ("Maintenance Due / High Mileage Warning", numCheck "odometer_km" (fun v => 300000 < v)),
    ("Engine Overheating", numCheck "engine_temp_c" (fun v => 110 < v)),
    ("Battery Failure", numCheck "battery_voltage_v" (fun v => v < 12)),
    ("Low Oil Pressure Warning", numCheck "oil_pressure_kpa" (fun v => v < 150)),
    ("Brake Pads Critically Worn", brakeCheck),
    ("Suspension Failure Risk", numCheck "suspension_health_pct" (fun v => v < 40)),
    ("Low Tire Pressure", numCheck "tire_pressure_psi_fl" (fun v => v < 20)),
    ("Coolant Critically Low", numCheck "coolant_level_pct" (fun v => v < 30)),
    ("Brake Fluid Critically Low", numCheck "brake_fluid_level_pct" (fun v => v < 20)),
    ("Transmission Overheating", numCheck "transmission_fluid_temp_c" (fun v => 110 < v)) ]

/-- Run the checks in order against `alerts` accumulated so far.  The
whole block sits inside one `try/except Exception: pass`, so the first
check that raises aborts the remaining checks and the accumulated list
is returned as-is. -/
def runRules (rs : List (String × (Vitals → Outcome))) (data : Vitals)
    (acc : List String) : List String :=
  match rs with
  | [] => acc
  | (label, chk) :: rest =>
      match chk data with
      | .raise => acc
      | .fire => runRules rest data (acc ++ [label])
      | .nofire => runRules rest data acc
termination_by structural rs

/-- `check_custom_rules(data)`: the list of rule-based alerts. -/
def check_custom_rules (data : Vitals) : List String :=
  runRules ruleTable data []

/-- The ten alert labels the rule evaluator can emit, in source order. -/
def alertLabels : List String :=
  [ "Maintenance Due / High Mileage Warning", "Engine Overheating", "Battery Failure",
    "Low Oil Pressure Warning", "Brake Pads Critically Worn", "Suspension Failure Risk",
    "Low Tire Pressure", "Coolant Critically Low", "Brake Fluid Critically Low",
    "Transmission Overheating" ]

/-! ## Classifier adapter (`predict_failure`)

The pickled model, scaler and label encoder are opaque assets; they are
modelled as abstract (total) functions.  The feature engineering and the
reindexing to the training columns are concrete and follow the source. -/

/-- The pre-trained classifier: `model.predict` (class index of the single
row) and `model.predict_proba` (per-class probability row). -/
structure MLModel where
  predictIdx : List ℚ → ℕ
  predictProba : List ℚ → List ℚ

/-- The fitted feature scaler: `scaler.transform` on the single feature row. -/
structure Scaler where
  transform : List PyVal → List ℚ

/-- The fitted label encoder: `encoder.inverse_transform` on a class index. -/
structure LabelEncoder where
  inverseTransform : ℕ → String

/-- `input_df["engine_temp_c"] / (input_df["oil_pressure_kpa"] + 1e-6)`,
with `0.0` substituted when the computation raises (missing key, or a
non-numeric operand). -/
def temp_pressure_ratio (input_data : Vitals) : PyVal :=
  match lookup input_data "engine_temp_c", lookup input_data "oil_pressure_kpa" with
  | some (.num t), some (.num p) => .num (t / (p + mkRat 1 1000000))
  | _, _ => .num 0

/-- `input_df["brake_pad_wear_mm_front"] + input_df["brake_pad_wear_mm_rear"]`,
with `0.0` substituted when the computation raises.  Two string operands
concatenate (pandas object-dtype addition) instead of raising. -/
def total_brake_wear (input_data : Vitals) : PyVal :=
  match lookup input_data "brake_pad_wear_mm_front", lookup input_data "brake_pad_wear_mm_rear" with
  | some (.num a), some (.num b) => .num (a + b)
  | some (.str a), some (.str b) => .str (a ++ b)
  | _, _ => .num 0

/-- The row after adding the two engineered columns and
`reindex(columns=training_columns, fill_value=0)`: one entry per training
column, taking the engineered value for the two engineered names, the
input's value for a column present in the input, and `0` otherwise. -/
def featureRow (input_data : Vitals) (cols : List String) : List PyVal :=
  cols.map fun c =>
    if c = "temp_pressure_ratio" then temp_pressure_ratio input_data
    else if c = "total_brake_wear" then total_brake_wear input_data
    else (lookup input_data c).getD (.num 0)

/-- `prediction_proba.max()`: the largest entry of the probability row.
(numpy raises on an empty array; classifier probability rows are
non-empty, so the `[]` value is never exercised.) -/
def npMax : List ℚ → ℚ
  | [] => 0
  | x :: xs => xs.foldl max x

/-- `predict_failure(input_data)`: returns
`(predicted label, confidence, probability row)`.  The guard
`if not all([model, scaler, encoder, training_columns])` is Python
truthiness: it also trips on an empty `training_columns` list. -/
def predict_failure (model : Option MLModel) (scaler : Option Scaler)
    (encoder : Option LabelEncoder) (training_columns : Option (List String))
    (input_data : Vitals) : String × ℚ × Option (List ℚ) :=
  match model, scaler, encoder, training_columns with
  | some m, some s, some e, some cols =>
      if cols.isEmpty then ("Model not loaded", 0, none)
      else
        let input_scaled := s.transform (featureRow input_data cols)
        let prediction_proba := m.predictProba input_scaled
        let predicted_failure := e.inverseTransform (m.predictIdx input_scaled)
        (predicted_failure, npMax prediction_proba * 100, some prediction_proba)
  | _, _, _, _ => ("Model not loaded", 0, none)

/-! ## Verdict fusion (Detailed Analysis page, lines 927-941) -/

/-- Lines 929-931:
`all_alerts = set(rule_alerts)` then
`if predicted_failure not in ["None", "Normal"] and confidence >= 50:
all_alerts.add(predicted_failure)`. -/
def all_alerts (rule_alerts : List String) (predicted_failure : String)
    (confidence : ℚ) : Finset String :=
  if predicted_failure ∉ ["None", "Normal"] ∧ 50 ≤ confidence then
    insert predicted_failure rule_alerts.toFinset
  else rule_alerts.toFinset

/-- The fused diagnosis result: the alert set shown as error banners, and
the confidence shown by `st.metric` (the same `confidence` variable in
both the alert and the no-alert branch). -/
structure Verdict where
  alerts : Finset String
  confidence : ℚ
deriving DecidableEq

/-- One diagnosis: evaluate the rules, run the classifier, fuse. -/
def runDiagnosis (model : Option MLModel) (scaler : Option Scaler)
    (encoder : Option LabelEncoder) (training_columns : Option (List String))
    (data : Vitals) : Verdict :=
  let rule_alerts := check_custom_rules data
  let p := predict_failure model scaler encoder training_columns data
  { alerts := all_alerts rule_alerts p.1 p.2.1, confidence := p.2.1 }

/-! ## General lemmas about the rule runner -/

theorem runRules_acc (rs : List (String × (Vitals → Outcome))) (data : Vitals) :
    ∀ acc, runRules rs data acc = acc ++ runRules rs data [] := by
  induction rs with
  | nil => intro acc; simp [runRules]
  | cons r rest ih =>
      intro acc
      obtain ⟨label, chk⟩ := r
      cases h : chk data with
      | raise => simp [runRules, h]
      | fire =>
          simp only [runRules, h]
          rw [ih (acc ++ [label]), ih ([] ++ [label])]
          simp
      | nofire =>
          simp only [runRules, h]
          rw [ih acc]

theorem runRules_sublist (rs : List (String × (Vitals → Outcome))) (data : Vitals) :
    (runRules rs data []).Sublist (rs.map Prod.fst) := by
  induction rs with
  | nil => simp [runRules]
  | cons r rest ih =>
      obtain ⟨label, chk⟩ := r
      cases h : chk data with
      | raise => simp [runRules, h]
      | fire =>
          simp only [runRules, h, List.nil_append, List.map_cons]
          rw [runRules_acc rest data [label]]
          exact ih.cons₂ label
      | nofire =>
          simp only [runRules, h, List.map_cons]
          exact ih.cons label

/-- Membership in the rule runner's output: `l` is emitted exactly when
some rule labelled `l` fires and no rule before it raises. -/
theorem mem_runRules (rs : List (String × (Vitals → Outcome))) (data : Vitals)
    (l : String) :
    l ∈ runRules rs data [] ↔
      ∃ pre r post, rs = pre ++ r :: post ∧ r.1 = l ∧ r.2 data = Outcome.fire ∧
        ∀ s ∈ pre, s.2 data ≠ Outcome.raise := by
  induction rs with
  | nil =>
      simp only [runRules, List.not_mem_nil, false_iff]
      rintro ⟨pre, r, post, habs, -⟩
      have hr : r ∈ ([] : List (String × (Vitals → Outcome))) := by
        rw [habs]; exact List.mem_append_right pre (List.mem_cons_self r post)
      exact absurd hr (List.not_mem_nil r)
  | cons x rest ih =>
      obtain ⟨label, chk⟩ := x
      constructor
      · intro hmem
        cases h : chk data with
        | raise => simp only [runRules, h] at hmem; exact absurd hmem (List.not_mem_nil l)
        | fire =>
            simp only [runRules, h, List.nil_append] at hmem
            rw [runRules_acc rest data [label], List.singleton_append, List.mem_cons] at hmem
            rcases hmem with hmem | hmem
            · exact ⟨[], (label, chk), rest, by simp, hmem.symm, h, by simp⟩
            · obtain ⟨pre, r, post, hsplit, hl, hfire, hok⟩ := ih.mp hmem
              refine ⟨(label, chk) :: pre, r, post, by simp [hsplit], hl, hfire, ?_⟩
              rintro s hs
              rcases List.mem_cons.mp hs with hsx | hs
              · rw [hsx]; simp [h]
              · exact hok s hs
        | nofire =>
            simp only [runRules, h] at hmem
            obtain ⟨pre, r, post, hsplit, hl, hfire, hok⟩ := ih.mp hmem
            refine ⟨(label, chk) :: pre, r, post, by simp [hsplit], hl, hfire, ?_⟩
            rintro s hs
            rcases List.mem_cons.mp hs with hsx | hs
            · rw [hsx]; simp [h]
            · exact hok s hs
      · rintro ⟨pre, r, post, hsplit, hl, hfire, hok⟩
        cases pre with
        | nil =>
            rw [List.nil_append] at hsplit
            injection hsplit with hx hrest
            have hA : label = r.1 := congrArg Prod.fst hx
            have hB : chk = r.2 := congrArg Prod.snd hx
            have hf : chk data = Outcome.fire := by rw [hB]; exact hfire
            have hlab : label = l := by rw [hA]; exact hl
            simp only [runRules, hf, List.nil_append]
            rw [runRules_acc rest data [label]]
            simp [hlab]
        | cons p pre₂ =>
            rw [List.cons_append] at hsplit
            injection hsplit with hx hrest
            have hchk : chk data ≠ Outcome.raise := by
              have hp := hok p (List.mem_cons_self _ _)
              rw [← hx] at hp
              exact hp
            have hrec : l ∈ runRules rest data [] :=
              ih.mpr ⟨pre₂, r, post, hrest, hl, hfire,
                fun s hs => hok s (List.mem_cons_of_mem _ hs)⟩
            cases h : chk data with
            | raise => exact absurd h hchk
            | fire =>
                simp only [runRules, h, List.nil_append]
                rw [runRules_acc rest data [label]]
                exact List.mem_append_right _ hrec
            | nofire =>
                simp only [runRules, h]
                exact hrec

/-- In a list whose images under `f` are distinct, two decompositions
around elements with the same image coincide. -/
theorem split_unique {α β : Type} (f : α → β) :
    ∀ (pre : List α) (rs pre' : List α) (r r' : α) (post post' : List α),
      (rs.map f).Nodup → rs = pre ++ r :: post → rs = pre' ++ r' :: post' →
      f r = f r' → pre = pre' ∧ r = r' ∧ post = post' := by
  intro pre
  induction pre with
  | nil =>
      intro rs pre' r r' post post' hnd h1 h2 heq
      subst h1
      rw [List.nil_append] at h2 hnd
      cases pre' with
      | nil =>
          rw [List.nil_append] at h2
          injection h2 with hx hrest
          exact ⟨rfl, hx, hrest⟩
      | cons q pre₂ =>
          rw [List.cons_append] at h2
          injection h2 with hx hrest
          exfalso
          have hmem : f r' ∈ (post.map f) := by
            rw [hrest]
            exact List.mem_map_of_mem f (List.mem_append_right pre₂ (List.mem_cons_self r' post'))
          rw [List.map_cons, List.nodup_cons] at hnd
          exact hnd.1 (heq ▸ hmem)
  | cons p pre₂ ih =>
      intro rs pre' r r' post post' hnd h1 h2 heq
      subst h1
      rw [List.cons_append, List.map_cons, List.nodup_cons] at hnd
      cases pre' with
      | nil =>
          rw [List.nil_append] at h2
          injection h2 with hx hrest
          exfalso
          have hmem : f r ∈ ((pre₂ ++ r :: post).map f) :=
            List.mem_map_of_mem f (List.mem_append_right pre₂ (List.mem_cons_self r post))
          have hpr : f p = f r := by rw [hx, heq]
          exact hnd.1 (hpr ▸ hmem)
      | cons q pre₃ =>
          rw [List.cons_append] at h2
          injection h2 with hx hrest
          obtain ⟨e1, e2, e3⟩ :=
            ih (pre₂ ++ r :: post) pre₃ r r' post post' hnd.2 rfl hrest heq
          exact ⟨by rw [hx, e1], e2, e3⟩

/-! ## Claim theorems -/

/-- C10: on any input mapping whatsoever — empty, missing keys, or with
non-numeric values — `check_custom_rules` returns a list (the embedding is
total, i.e. no exception escapes), every element of which is one of the
ten fixed alert labels, each occurring at most once. -/
theorem check_custom_rules_wellformed (data : Vitals) :
    (check_custom_rules data).Nodup ∧ check_custom_rules data ⊆ alertLabels := by
  have hsub := runRules_sublist ruleTable data
  have hmap : ruleTable.map Prod.fst = alertLabels := rfl
  rw [hmap] at hsub
  exact ⟨hsub.nodup (by decide), hsub.subset⟩

/-- C9: the fused alert set is always a superset of the rule-alert set —
fusion can only add the classifier's label, never remove a rule alert. -/
theorem fused_superset_of_rule_alerts (rule_alerts : List String)
    (predicted_failure : String) (confidence : ℚ) :
    rule_alerts.toFinset ⊆ all_alerts rule_alerts predicted_failure confidence := by
  rw [all_alerts]
  by_cases h : predicted_failure ∉ ["None", "Normal"] ∧ 50 ≤ confidence
  · rw [if_pos h]
    exact Finset.subset_insert _ _
  · rw [if_neg h]

/-- C2: membership in the fused alert set — a label is in the fusion
result exactly when it is a rule alert, or it is the predicted label, the
predicted label is neither "None" nor "Normal", and the confidence is at
least 50 (inclusive threshold); the set union collapses duplicates. -/
theorem all_alerts_mem_iff (rule_alerts : List String) (predicted_failure : String)
    (confidence : ℚ) (x : String) :
    x ∈ all_alerts rule_alerts predicted_failure confidence ↔
      x ∈ rule_alerts ∨
        (x = predicted_failure ∧ predicted_failure ≠ "None" ∧
          predicted_failure ≠ "Normal" ∧ 50 ≤ confidence) := by
  rw [all_alerts]
  by_cases h : predicted_failure ∉ ["None", "Normal"] ∧ 50 ≤ confidence
  · rw [if_pos h]
    simp only [List.mem_cons, List.not_mem_nil, or_false, not_or] at h
    simp only [Finset.mem_insert, List.mem_toFinset]
    constructor
    · rintro (hx | hx)
      · exact Or.inr ⟨hx, h.1.1, h.1.2, h.2⟩
      · exact Or.inl hx
    · rintro (hx | hx)
      · exact Or.inr hx
      · exact Or.inl hx.1
  · rw [if_neg h]
    simp only [List.mem_cons, List.not_mem_nil, or_false, not_or, not_and, not_not] at h
    simp only [List.mem_toFinset]
    constructor
    · exact Or.inl
    · rintro (hx | ⟨-, hn1, hn2, hc⟩)
      · exact hx
      · exact absurd hc (h ⟨hn1, hn2⟩)

/-- C7: the confidence attached to the fused Verdict is always the raw
confidence returned by `predict_failure` — the fusion step never modifies
it, whether or not the label was folded in and whether or not the final
alert set is empty. -/
theorem fusion_preserves_confidence (model : Option MLModel) (scaler : Option Scaler)
    (encoder : Option LabelEncoder) (training_columns : Option (List String))
    (data : Vitals) :
    (runDiagnosis model scaler encoder training_columns data).confidence
      = (predict_failure model scaler encoder training_columns data).2.1 :=
  rfl

/-- C3: whenever any of the four model assets is unavailable,
`predict_failure` returns the sentinel `("Model not loaded", 0, None)`;
the embedding is total, so no exception escapes the call. -/
theorem predict_failure_unavailable (model : Option MLModel) (scaler : Option Scaler)
    (encoder : Option LabelEncoder) (training_columns : Option (List String))
    (input_data : Vitals)
    (h : model = none ∨ scaler = none ∨ encoder = none ∨ training_columns = none) :
    predict_failure model scaler encoder training_columns input_data
      = ("Model not loaded", 0, none) := by
  cases model <;> cases scaler <;> cases encoder <;> cases training_columns <;>
    simp_all [predict_failure]

/-- Witness for C3 at a concrete input: all four assets missing. -/
theorem predict_failure_unavailable_w :
    predict_failure none none none none [("engine_temp_c", PyVal.num 95)]
      = ("Model not loaded", 0, none) :=
  predict_failure_unavailable none none none none _ (Or.inl rfl)

/-- The end-to-end scenario vitals of the spec: odometer 320000, engine
95, battery 13.8 (= 69/5), oil 300, brake pads 8/8, suspension 80, tire
32, coolant 90, brake fluid 90, transmission fluid 90. -/
def scenarioVitals : Vitals :=
  [ ("odometer_km", .num 320000), ("engine_temp_c", .num 95),
    ("battery_voltage_v", .num (mkRat 69 5)), ("oil_pressure_kpa", .num 300),
    ("brake_pad_wear_mm_front", .num 8), ("brake_pad_wear_mm_rear", .num 8),
    ("suspension_health_pct", .num 80), ("tire_pressure_psi_fl", .num 32),
    ("coolant_level_pct", .num 90), ("brake_fluid_level_pct", .num 90),
    ("transmission_fluid_temp_c", .num 90) ]

/-- C4: on the spec's end-to-end scenario vitals with model assets
unavailable, the diagnosis yields exactly the high-mileage alert with
confidence 0. -/
theorem end_to_end_high_mileage_scenario :
    runDiagnosis none none none none scenarioVitals
      = ⟨{"Maintenance Due / High Mileage Warning"}, 0⟩ := by
  decide

/-- C5: when every monitored key is present with a numeric value inside
its safe band, the rule evaluator returns an empty alert list. -/
theorem safe_band_no_alerts (data : Vitals)
    (o t b p f r s ty c bf tf : ℚ)
    (ho : lookup data "odometer_km" = some (.num o)) (ho' : o ≤ 300000)
    (ht : lookup data "engine_temp_c" = some (.num t)) (ht' : t ≤ 110)
    (hb : lookup data "battery_voltage_v" = some (.num b)) (hb' : 12 ≤ b)
    (hp : lookup data "oil_pressure_kpa" = some (.num p)) (hp' : 150 ≤ p)
    (hf : lookup data "brake_pad_wear_mm_front" = some (.num f)) (hf' : 3 ≤ f)
    (hr : lookup data "brake_pad_wear_mm_rear" = some (.num r)) (hr' : 3 ≤ r)
    (hs : lookup data "suspension_health_pct" = some (.num s)) (hs' : 40 ≤ s)
    (hty : lookup data "tire_pressure_psi_fl" = some (.num ty)) (hty' : 20 ≤ ty)
    (hc : lookup data "coolant_level_pct" = some (.num c)) (hc' : 30 ≤ c)
    (hbf : lookup data "brake_fluid_level_pct" = some (.num bf)) (hbf' : 20 ≤ bf)
    (htf : lookup data "transmission_fluid_temp_c" = some (.num tf)) (htf' : tf ≤ 110) :
    check_custom_rules data = [] := by
  have e1 : numCheck "odometer_km" (fun v => 300000 < v) data = .nofire := by
    simp [numCheck, ho, ho'.not_lt]
  have e2 : numCheck "engine_temp_c" (fun v => 110 < v) data = .nofire := by
    simp [numCheck, ht, ht'.not_lt]
  have e3 : numCheck "battery_voltage_v" (fun v => v < 12) data = .nofire := by
    simp [numCheck, hb, hb'.not_lt]
  have e4 : numCheck "oil_pressure_kpa" (fun v => v < 150) data = .nofire := by
    simp [numCheck, hp, hp'.not_lt]
  have e5 : brakeCheck data = .nofire := by
    simp [brakeCheck, hf, hr, hf'.not_lt, hr'.not_lt]
  have e6 : numCheck "suspension_health_pct" (fun v => v < 40) data = .nofire := by
    simp [numCheck, hs, hs'.not_lt]
  have e7 : numCheck "tire_pressure_psi_fl" (fun v => v < 20) data = .nofire := by
    simp [numCheck, hty, hty'.not_lt]
  have e8 : numCheck "coolant_level_pct" (fun v => v < 30) data = .nofire := by
    simp [numCheck, hc, hc'.not_lt]
  have e9 : numCheck "brake_fluid_level_pct" (fun v => v < 20) data = .nofire := by
    simp [numCheck, hbf, hbf'.not_lt]
  have e10 : numCheck "transmission_fluid_temp_c" (fun v => 110 < v) data = .nofire := by
    simp [numCheck, htf, htf'.not_lt]
  show runRules ruleTable data [] = []
  rw [ruleTable]
  simp only [runRules, e1, e2, e3, e4, e5, e6, e7, e8, e9, e10]

/-- Witness for C5: a fully-populated all-safe vitals reading. -/
theorem safe_band_no_alerts_w :
    check_custom_rules
      [ ("odometer_km", .num 100000), ("engine_temp_c", .num 95),
        ("battery_voltage_v", .num 13), ("oil_pressure_kpa", .num 300),
        ("brake_pad_wear_mm_front", .num 8), ("brake_pad_wear_mm_rear", .num 8),
        ("suspension_health_pct", .num 80), ("tire_pressure_psi_fl", .num 32),
        ("coolant_level_pct", .num 90), ("brake_fluid_level_pct", .num 90),
        ("transmission_fluid_temp_c", .num 90) ] = [] :=
  safe_band_no_alerts _ 100000 95 13 300 8 8 80 32 90 90 90
    rfl (by norm_num) rfl (by norm_num) rfl (by norm_num) rfl (by norm_num)
    rfl (by norm_num) rfl (by norm_num) rfl (by norm_num) rfl (by norm_num)
    rfl (by norm_num) rfl (by norm_num) rfl (by norm_num)

/-- If the brake alert is emitted, the brake check itself fired. -/
theorem brake_alert_needs_fire (data : Vitals)
    (h : "Brake Pads Critically Worn" ∈ check_custom_rules data) :
    brakeCheck data = Outcome.fire := by
  obtain ⟨pre, r, post, hsplit, hl, hfire, -⟩ :=
    (mem_runRules ruleTable data _).mp h
  have hr : r ∈ ruleTable := by
    rw [hsplit]
    exact List.mem_append_right _ (List.mem_cons_self _ _)
  simp only [ruleTable, List.mem_cons, List.not_mem_nil, or_false] at hr
  rcases hr with h0|h0|h0|h0|h0|h0|h0|h0|h0|h0 <;> rw [h0] at hl hfire <;>
    first
      | exact hfire
      | exact absurd hl (by decide)

/-- C6: with `brake_pad_wear_mm_rear` absent and a front wear of 8 mm,
"Brake Pads Critically Worn" is never emitted: the rear value defaults to
3 and the strict comparison `3 < 3` is false. -/
theorem rear_default_no_brake_alert (data : Vitals)
    (hrear : lookup data "brake_pad_wear_mm_rear" = none)
    (hfront : lookup data "brake_pad_wear_mm_front" = some (.num 8)) :
    "Brake Pads Critically Worn" ∉ check_custom_rules data := by
  intro hmem
  have hb := brake_alert_needs_fire data hmem
  rw [brakeCheck, hfront, hrear] at hb
  norm_num at hb
  exact Outcome.noConfusion hb

/-- Witness for C6: front pads at 8 mm, rear key omitted. -/
theorem rear_default_no_brake_alert_w :
    "Brake Pads Critically Worn" ∉
      check_custom_rules [("brake_pad_wear_mm_front", PyVal.num 8)] :=
  rear_default_no_brake_alert _ rfl rfl

theorem foldl_max_bounds (xs : List ℚ) :
    ∀ b, 0 ≤ b → b ≤ 1 → (∀ q ∈ xs, 0 ≤ q ∧ q ≤ 1) →
      0 ≤ xs.foldl max b ∧ xs.foldl max b ≤ 1 := by
  induction xs with
  | nil => intro b hb0 hb1 _; exact ⟨hb0, hb1⟩
  | cons y ys ih =>
      intro b hb0 hb1 hm
      have hy := hm y (List.mem_cons_self y ys)
      rw [List.foldl_cons]
      exact ih (max b y) (le_trans hb0 (le_max_left b y)) (max_le hb1 hy.2)
        (fun q hq => hm q (List.mem_cons_of_mem y hq))

theorem npMax_bounds (l : List ℚ) (h : ∀ q ∈ l, 0 ≤ q ∧ q ≤ 1) :
    0 ≤ npMax l ∧ npMax l ≤ 1 := by
  cases l with
  | nil => rw [npMax]; norm_num
  | cons x xs =>
      rw [npMax]
      have hx := h x (List.mem_cons_self x xs)
      exact foldl_max_bounds xs x hx.1 hx.2 (fun q hq => h q (List.mem_cons_of_mem x hq))

/-- C8: the confidence returned by `predict_failure` is in [0, 100]; it is
0 whenever a model asset is unavailable, and otherwise is the maximum
class probability times 100, under the hypothesis that the classifier's
probability outputs lie in [0, 1]. -/
theorem confidence_in_unit_range (model : Option MLModel) (scaler : Option Scaler)
    (encoder : Option LabelEncoder) (training_columns : Option (List String))
    (input_data : Vitals)
    (hprob : ∀ m, model = some m → ∀ row q, q ∈ m.predictProba row → 0 ≤ q ∧ q ≤ 1) :
    0 ≤ (predict_failure model scaler encoder training_columns input_data).2.1 ∧
    (predict_failure model scaler encoder training_columns input_data).2.1 ≤ 100 := by
  cases model with
  | none =>
      cases scaler <;> cases encoder <;> cases training_columns <;>
        simp [predict_failure]
  | some m =>
      cases scaler with
      | none => cases encoder <;> cases training_columns <;> simp [predict_failure]
      | some s =>
          cases encoder with
          | none => cases training_columns <;> simp [predict_failure]
          | some e =>
              cases training_columns with
              | none => simp [predict_failure]
              | some cols =>
                  rw [predict_failure]
                  by_cases hempty : cols.isEmpty
                  · rw [if_pos hempty]; norm_num
                  · rw [if_neg hempty]
                    dsimp only
                    have hb := npMax_bounds
                      (m.predictProba (s.transform (featureRow input_data cols)))
                      (hprob m rfl _)
                    constructor
                    · linarith [hb.1]
                    · linarith [hb.2]

/-- A concrete classifier whose probability rows are `[1/2, 1/2]`. -/
def wModel : MLModel := ⟨fun _ => 0, fun _ => [mkRat 1 2, mkRat 1 2]⟩

/-- A concrete scaler returning an empty scaled row. -/
def wScaler : Scaler := ⟨fun _ => []⟩

/-- A concrete label encoder. -/
def wEncoder : LabelEncoder := ⟨fun _ => "Engine Overheating"⟩

/-- Witness for C8: with the concrete classifier the confidence evaluates
to 50, inside [0, 100]. -/
theorem confidence_in_unit_range_w :
    (predict_failure (some wModel) (some wScaler) (some wEncoder) (some ["c1"]) []).2.1 = 50 ∧
    (0 ≤ (predict_failure (some wModel) (some wScaler) (some wEncoder) (some ["c1"]) []).2.1 ∧
      (predict_failure (some wModel) (some wScaler) (some wEncoder) (some ["c1"]) []).2.1 ≤ 100) :=
  ⟨by norm_num [predict_failure, wModel, npMax],
    confidence_in_unit_range (some wModel) (some wScaler) (some wEncoder) (some ["c1"]) []
      (by
        rintro m hm row q hq
        injection hm with hm
        rw [← hm, wModel] at hq
        rcases List.mem_cons.mp hq with hq | hq
        · rw [hq]; norm_num
        · rcases List.mem_cons.mp hq with hq | hq
          · rw [hq]; norm_num
          · exact absurd hq (List.not_mem_nil q))⟩

/-- C1 counterexample: with `odometer_km` absent and `engine_temp_c` = 200
(whose own input is present and over threshold), the engine check does NOT
contribute its alert — the failed odometer lookup aborts the whole rule
block, so the result is empty. -/
theorem rule_abort_counterexample :
    lookup [("engine_temp_c", PyVal.num 200)] "odometer_km" = none ∧
    lookup [("engine_temp_c", PyVal.num 200)] "engine_temp_c" = some (PyVal.num 200) ∧
    (110:ℚ) < 200 ∧
    "Engine Overheating" ∉ check_custom_rules [("engine_temp_c", PyVal.num 200)] := by
  decide

/-- C1 amended: the checks form one `try` block, so a rule contributes its
alert iff it fires and no earlier check raised; as soon as some check
raises (missing key or non-numeric value), that check and every later
check are skipped, and no exception propagates (the evaluator is total
and still returns the alerts accumulated before the raise). -/
theorem rule_block_prefix_semantics (data : Vitals)
    (pre : List (String × (Vitals → Outcome))) (r : String × (Vitals → Outcome))
    (post : List (String × (Vitals → Outcome)))
    (hsplit : ruleTable = pre ++ r :: post) :
    ((∀ s ∈ pre, s.2 data ≠ Outcome.raise) →
      (r.1 ∈ check_custom_rules data ↔ r.2 data = Outcome.fire)) ∧
    (((∃ s ∈ pre, s.2 data = Outcome.raise) ∨ r.2 data = Outcome.raise) →
      r.1 ∉ check_custom_rules data) := by
  have hnd : (ruleTable.map Prod.fst).Nodup := by decide
  constructor
  · intro hok
    constructor
    · intro hmem
      obtain ⟨pre', r', post', hsplit', hl, hfire, hok'⟩ :=
        (mem_runRules ruleTable data r.1).mp hmem
      obtain ⟨hpe, hre, -⟩ :=
        split_unique Prod.fst pre' ruleTable pre r' r post' post hnd hsplit' hsplit hl
      rw [← hre]
      exact hfire
    · intro hfire
      exact (mem_runRules ruleTable data r.1).mpr ⟨pre, r, post, hsplit, rfl, hfire, hok⟩
  · rintro hbad hmem
    obtain ⟨pre', r', post', hsplit', hl, hfire, hok'⟩ :=
      (mem_runRules ruleTable data r.1).mp hmem
    obtain ⟨hpe, hre, -⟩ :=
      split_unique Prod.fst pre' ruleTable pre r' r post' post hnd hsplit' hsplit hl
    rcases hbad with ⟨s, hs, hraise⟩ | hraise
    · exact hok' s (by rw [hpe]; exact hs) hraise
    · rw [hre] at hfire
      rw [hfire] at hraise
      exact Outcome.noConfusion hraise

/-- A vitals reading whose odometer check passes and whose engine check
fires. -/
def hotVitals : Vitals := [("odometer_km", .num 1), ("engine_temp_c", .num 200)]

/-- Witness for C1 (amended): with the rule before the engine check not
raising and the engine check firing, the engine alert is emitted. -/
theorem rule_block_prefix_semantics_w :
    "Engine Overheating" ∈ check_custom_rules hotVitals :=
  ((rule_block_prefix_semantics hotVitals (ruleTable.take 1)
      ("Engine Overheating", numCheck "engine_temp_c" (fun v => 110 < v))
      (ruleTable.drop 2) rfl).1
    (by
      intro s hs
      have hseq : s = ("Maintenance Due / High Mileage Warning",
          numCheck "odometer_km" (fun v => 300000 < v)) := by
        simpa [ruleTable] using hs
      rw [hseq]
      decide)).mpr (by decide)
